import Mathlib

/-!
# Remi — verification of the workflow-pipeline specification

Shallow embedding of the core pipeline of the Remi repository
(`backend/app`), with proofs settling the frozen claims C1–C10.

Conventions of the embedding:
* Python floats are modelled as rationals (`ℚ`); `round(x, n)` is modelled
  by `pyRoundTo n`, round-half-to-even on the idealized decimal value.
* Python dict fields read through `.get(key, default)` are modelled as
  `Option` fields read through `Option.getD`.
* Calendar datetimes are modelled as integer day numbers (the code only
  ever compares dates and takes whole-day differences at midnight).
-/

set_option autoImplicit false

namespace Remi

/-- Python `round` to an integer: round half to even (banker's rounding),
on the idealized rational value of the float. -/
def pyRound (q : ℚ) : ℤ :=
  if q - ⌊q⌋ < 1/2 then ⌊q⌋
  else if 1/2 < q - ⌊q⌋ then ⌊q⌋ + 1
  else if ⌊q⌋ % 2 = 0 then ⌊q⌋ else ⌊q⌋ + 1

/-- Python `round(x, d)` for `d` decimal places. -/
def pyRoundTo (d : ℕ) (q : ℚ) : ℚ := (pyRound (q * 10 ^ d) : ℚ) / 10 ^ d

/-! ## Priority Scorer — `backend/app/agents/prioritization_agent.py` -/

namespace Prioritization

/-- A task dict as consumed by `PrioritizationAgent`. The source reads
`due_date` as a `"%Y-%m-%d"` string and immediately turns it into
`(strptime(due_date) - datetime.now()).days`; the embedding carries that
integer day difference directly (`due_days_until`), with `none` covering
both an absent `due_date` and an unparseable one — the source returns the
same urgency `0.3` in both cases. -/
structure Task where
  id : Option String
  title : String
  due_days_until : Option ℤ
  grade_percentage : Option ℚ
  stress_score : Option ℚ
  estimated_hours : Option ℚ
deriving DecidableEq

/-- `PrioritizationAgent._calculate_urgency`, as a function of the
already-computed day difference. -/
def calculate_urgency : Option ℤ → ℚ
  | none => 0.3
  | some days_until =>
    if days_until < 0 then 1.0
    else if days_until ≤ 1 then 0.95
    else if days_until ≤ 3 then 0.85
    else if days_until ≤ 7 then 0.7
    else if days_until ≤ 14 then 0.5
    else 0.3

/-- `PrioritizationAgent._calculate_priority_score`. -/
def calculate_priority_score (task : Task) : ℚ :=
  let urgency := calculate_urgency task.due_days_until
  let importance := task.grade_percentage.getD 10 / 100
  let stress := task.stress_score.getD 0.5
  let hours := task.estimated_hours.getD 3
  let hours_factor := min (hours / 20) 1
  min (urgency * 0.4 + importance * 0.3 + stress * 0.2 + hours_factor * 0.1) 1

/-- `PrioritizationAgent._get_priority_factors` (a dict, as an assoc list). -/
def get_priority_factors (task : Task) : List (String × ℚ) :=
  [("urgency", calculate_urgency task.due_days_until),
   ("importance", task.grade_percentage.getD 10 / 100),
   ("stress", task.stress_score.getD 0.5),
   ("effort", min (task.estimated_hours.getD 3 / 20) 1)]

/-- `task.get("id", task.get("title"))` — the key used for priority entries. -/
def taskKey (task : Task) : String := task.id.getD task.title

/-- One entry of the priority output. Rule-based entries are dicts without
the `"rank"` and `"explanation"` keys; those keys are modelled as `Option`
fields with `none` for key-absent. The fusion path's `factors = {}` branch
is the empty assoc list. -/
structure PriorityEntry where
  task_id : String
  priority_score : ℚ
  rank : Option ℕ
  explanation : Option String
  factors : List (String × ℚ)
deriving DecidableEq

/-- Descending order on heuristic score, the sort key of
`_rule_based_prioritization` (`reverse=True` on `priority_score`). -/
def scoreGE (a b : PriorityEntry) : Prop := b.priority_score ≤ a.priority_score

instance : DecidableRel scoreGE := fun a b =>
  inferInstanceAs (Decidable (b.priority_score ≤ a.priority_score))

instance : IsTotal PriorityEntry scoreGE :=
  ⟨fun a b => le_total b.priority_score a.priority_score⟩

instance : IsTrans PriorityEntry scoreGE :=
  ⟨fun _ _ _ h1 h2 => le_trans h2 h1⟩

/-- `PrioritizationAgent._rule_based_prioritization`: score every task,
then stable-sort descending by score (Python `list.sort` is stable;
`insertionSort` is the matching stable sort). -/
def rule_based_prioritization (tasks : List Task) : List PriorityEntry :=
  let prioritized := tasks.map fun task =>
    { task_id := taskKey task
      priority_score := calculate_priority_score task
      rank := none
      explanation := none
      factors := get_priority_factors task : PriorityEntry }
  List.insertionSort scoreGE prioritized

/-- The dict returned by `llm_service.prioritize_tasks`: `error.isSome`
models the `"error"` key being present (the source tests `"error" in
llm_result`); `priorities` and `explanations` model the corresponding keys
read through `.get` with defaults `[]` and `{}`. -/
structure LLMResult where
  error : Option String
  priorities : List String
  explanations : List (String × String)
deriving DecidableEq

/-- The `for i, task_id in enumerate(llm_priorities)` loop body of
`_combine_prioritizations`; `n = max(len(llm_priorities), 1)` and `i` is
the running 0-based position. -/
def combineGo (rule_based : List PriorityEntry) (explanations : List (String × String))
    (n : ℕ) : ℕ → List String → List PriorityEntry
  | _, [] => []
  | i, task_id :: rest =>
    let rule_item := rule_based.find? (fun r => r.task_id == task_id)
    let llm_score : ℚ := 1 - (i : ℚ) / (n : ℚ)
    let explanation := ((explanations.find? (fun p => p.1 == task_id)).map Prod.snd).getD ""
    let entry : PriorityEntry :=
      match rule_item with
      | some r =>
        { task_id := task_id
          priority_score := pyRoundTo 3 (llm_score * 0.7 + r.priority_score * 0.3)
          rank := some (i + 1)
          explanation := some explanation
          factors := r.factors }
      | none =>
        { task_id := task_id
          priority_score := pyRoundTo 3 (llm_score * 0.7)
          rank := some (i + 1)
          explanation := some explanation
          factors := [] }
    entry :: combineGo rule_based explanations n (i + 1) rest

/-- `PrioritizationAgent._combine_prioritizations`. The `tasks` argument is
kept from the source signature; the source never reads it. -/
def combine_prioritizations (llm_result : LLMResult) (rule_based : List PriorityEntry)
    (tasks : List Task) : List PriorityEntry :=
  if llm_result.error.isSome then rule_based
  else combineGo rule_based llm_result.explanations
    (max llm_result.priorities.length 1) 0 llm_result.priorities

end Prioritization

/-! ## Estimate Fusion — `backend/app/agents/workload_prediction_agent.py`
and `backend/app/services/llm_service.py` -/

namespace Workload

/-- The dict returned by `llm_service.analyze_task_workload` (the freeform
estimate): `estimated_hours, stress_score, complexity, explanation,
confidence`, plus the `breakdown` added by `_llm_predict` (read back with
`.get("breakdown", {})`, hence an assoc list). -/
structure LLMAnalysis where
  estimated_hours : ℚ
  stress_score : ℚ
  complexity : String
  explanation : String
  confidence : ℚ
  breakdown : List (String × ℚ)
deriving DecidableEq

/-- The dict built by `WorkloadPredictionAgent._ml_calibrate`: the
calibrated hour figure (the `method` field is the constant
`"ml_calibrated"` and is never read downstream). -/
structure MLPrediction where
  estimated_hours : ℚ
deriving DecidableEq

/-- The dict returned by `WorkloadPredictionAgent._combine_predictions`. -/
structure CombinedPrediction where
  estimated_hours : ℚ
  stress_score : ℚ
  complexity : String
  explanation : String
  confidence : ℚ
  breakdown : List (String × ℚ)
deriving DecidableEq

/-- `WorkloadPredictionAgent._combine_predictions`. -/
def combine_predictions (llm_analysis : LLMAnalysis) (ml_prediction : MLPrediction) :
    CombinedPrediction :=
  let llm_hours := llm_analysis.estimated_hours
  let ml_hours := ml_prediction.estimated_hours
  let llm_confidence := llm_analysis.confidence
  let llm_weight := 0.3 + llm_confidence * 0.3
  let ml_weight := 1.0 - llm_weight
  let combined_hours := llm_hours * llm_weight + ml_hours * ml_weight
  { estimated_hours := pyRoundTo 1 combined_hours
    stress_score := llm_analysis.stress_score
    complexity := llm_analysis.complexity
    explanation := llm_analysis.explanation ++ " (Calibrated with historical data)"
    confidence := llm_confidence
    breakdown := llm_analysis.breakdown }

/-- `WorkloadPredictionAgent._calculate_stress_breakdown` (only the
stress-score decomposition; the `task` argument is unused in the source). -/
def calculate_stress_breakdown (stress_score : ℚ) : List (String × ℚ) :=
  [("time_pressure", pyRoundTo 2 (min (stress_score * 0.4) 0.4)),
   ("complexity", pyRoundTo 2 (min (stress_score * 0.3) 0.3)),
   ("importance", pyRoundTo 2 (min (stress_score * 0.3) 0.3)),
   ("total", pyRoundTo 2 stress_score)]

end Workload

namespace LLMService

/-- The outcome of the freeform-estimator call inside
`LLMService.analyze_task_workload`, after `chat_completion` and
`json.loads`.  `failure` is any raised exception — network error, invalid
JSON, or a field that `float()` cannot coerce; `success` carries the parsed
dict with each relevant key optional (`none` = key absent, filled by the
`.get` defaults in the source). -/
inductive LLMOutcome where
  | failure
  | success (estimated_hours stress_score confidence : Option ℚ)
      (complexity explanation : Option String)
deriving DecidableEq

/-- The normalized analysis dict returned by `analyze_task_workload`. -/
structure WorkloadAnalysis where
  estimated_hours : ℚ
  stress_score : ℚ
  complexity : String
  explanation : String
  confidence : ℚ
deriving DecidableEq

/-- `LLMService.analyze_task_workload`: validate/normalize the parsed
response, or fall back to the fixed conservative defaults on any error.
The function is total — no error value is ever propagated to the caller. -/
def analyze_task_workload : LLMOutcome → WorkloadAnalysis
  | .failure =>
    { estimated_hours := 3.0
      stress_score := 0.5
      complexity := "medium"
      explanation := "Error in analysis, using default estimates"
      confidence := 0.3 }
  | .success estimated_hours stress_score confidence complexity explanation =>
    { estimated_hours := estimated_hours.getD 3.0
      stress_score := stress_score.getD 0.5
      complexity := complexity.getD "medium"
      explanation := explanation.getD ""
      confidence := confidence.getD 0.7 }

end LLMService

/-! ## Session Scheduler — `backend/app/api/study_plan.py`,
`smart_schedule_sessions` -/

namespace StudyPlan

/-- A task dict as passed to `smart_schedule_sessions`. `due_day` is the
parsed `due_date` as an integer day number at midnight (`none` = key
absent/empty); the source parses ISO strings and compares/diffs the
resulting datetimes only at whole-day granularity here. -/
structure Task where
  id : Option String
  title : String
  course_code : Option String
  priority_score : Option ℚ
  predicted_hours : Option ℚ
  due_day : Option ℤ
deriving DecidableEq

/-- Due-date component of the sort key: missing due dates sort last
(`datetime.max` in the source). -/
def dueKey (t : Task) : WithTop ℤ :=
  match t.due_day with
  | none => ⊤
  | some d => (d : WithTop ℤ)

/-- The full sort key `(-priority_score, due_date)` of the initial
`sorted(tasks, key=...)`, compared lexicographically. -/
def sortKey (t : Task) : ℚ ×ₗ WithTop ℤ :=
  toLex (-(t.priority_score.getD 5), dueKey t)

/-- Python's stable ascending sort on `sortKey`. -/
def sortLE (a b : Task) : Prop := sortKey a ≤ sortKey b

instance : DecidableRel sortLE := fun a b =>
  inferInstanceAs (Decidable (sortKey a ≤ sortKey b))

instance : IsTotal Task sortLE := ⟨fun a b => le_total (sortKey a) (sortKey b)⟩

instance : IsTrans Task sortLE := ⟨fun _ _ _ h1 h2 => le_trans h1 h2⟩

/-- `sorted(tasks, key=lambda t: (-priority_score, due_date))`; Python's
`sorted` is stable, matched by `insertionSort`. -/
def sortedTasks (tasks : List Task) : List Task := List.insertionSort sortLE tasks

/-- One element of the mutable `task_pool`. -/
structure PoolItem where
  task : Task
  remaining_hours : ℚ
  priority : ℚ
  due_date : Option ℤ
deriving DecidableEq

/-- A generated session dict. `day` is the session's calendar day as a day
number (the source stores it as a `"%Y-%m-%d"` string of `current_date`). -/
structure Session where
  id : String
  task_id : String
  task_title : String
  course_code : Option String
  day : ℤ
  priority : ℚ
  estimated_hours : ℚ
deriving DecidableEq, Inhabited

/-- The user-preference keys read by `smart_schedule_sessions`. The keys
`optimal_time` and `weekly_capacity` are never read by the scheduler and
are omitted. A `None` (or empty, hence falsy) preferences dict is
modelled by passing `none` for the whole record. -/
structure UserPreferences where
  recommended_session_length : Option ℚ
  prefers_pomodoro : Option Bool
  estimation_bias : Option ℚ
deriving DecidableEq

/-- Session-length cap: default 2.0h, overridden by
`recommended_session_length`, further capped at 1.5h for Pomodoro users. -/
def maxSessionLength (prefs : Option UserPreferences) : ℚ :=
  match prefs with
  | none => 2.0
  | some p =>
    let m := p.recommended_session_length.getD 2.0
    if p.prefers_pomodoro.getD false then min m 1.5 else m

/-- The estimation-bias correction applied to a computed session length. -/
def applyEstimationBias (prefs : Option UserPreferences) (session_hours : ℚ) : ℚ :=
  match prefs with
  | none => session_hours
  | some p =>
    match p.estimation_bias with
    | none => session_hours
    | some bias =>
      if bias < 0.9 then session_hours * 1.1
      else if 1.1 < bias then session_hours * 0.95
      else session_hours

/-- `sum(t.get('predicted_hours', 2) for t in sorted_tasks)`. -/
def totalHoursNeeded (tasks : List Task) : ℚ :=
  (tasks.map fun t => t.predicted_hours.getD 2).sum

/-- The `earliest_due` scan over the task list (`none` = no parseable due
date anywhere). -/
def earliestDue (tasks : List Task) : Option ℤ :=
  tasks.foldl
    (fun earliest task =>
      match task.due_day with
      | none => earliest
      | some due =>
        match earliest with
        | none => some due
        | some e => if due < e then some due else some e)
    none

/-- The scalar planning parameters computed before the scheduling loops. -/
structure Feasibility where
  days_needed : ℤ
  needs_more_hours : Bool
  adjusted_hours_per_day : ℤ
  warning : Option ℤ
deriving DecidableEq

/-- The `days_needed` / feasibility-check block of `smart_schedule_sessions`.
`warning = some r` models the warning f-string, which names the adjusted
rate `r` (`"You need to study at least {r} hours/day …"`); `none` is
Python `None`. `(earliest_due - start_date).days` is the exact integer
difference since both datetimes are at midnight here. -/
def feasibility (tasks : List Task) (study_hours_per_day : ℕ) (start_day : ℤ) : Feasibility :=
  let sorted_tasks := sortedTasks tasks
  let total_hours_needed := totalHoursNeeded sorted_tasks
  let days_needed : ℤ := ⌈total_hours_needed / (study_hours_per_day : ℚ)⌉
  match earliestDue sorted_tasks with
  | none =>
    { days_needed := days_needed, needs_more_hours := false
      adjusted_hours_per_day := study_hours_per_day, warning := none }
  | some earliest =>
    let days_until_due := earliest - start_day
    if 0 < days_until_due then
      let min_hours_per_day := total_hours_needed / (days_until_due : ℚ)
      if (study_hours_per_day : ℚ) < min_hours_per_day then
        { days_needed := days_until_due, needs_more_hours := true
          adjusted_hours_per_day := ⌈min_hours_per_day⌉
          warning := some ⌈min_hours_per_day⌉ }
      else
        { days_needed := days_needed, needs_more_hours := false
          adjusted_hours_per_day := study_hours_per_day, warning := none }
    else
      { days_needed := days_needed, needs_more_hours := false
        adjusted_hours_per_day := study_hours_per_day, warning := none }

/-- The initial `task_pool` built from the sorted task list. -/
def initialPool (sorted_tasks : List Task) : List PoolItem :=
  sorted_tasks.map fun task =>
    { task := task
      remaining_hours := task.predicted_hours.getD 2
      priority := task.priority_score.getD 5
      due_date := task.due_day }

/-- `any(t['remaining_hours'] > 0 for t in task_pool)`. -/
def hasRemaining (pool : List PoolItem) : Prop := ∃ t ∈ pool, 0 < t.remaining_hours

instance (pool : List PoolItem) : Decidable (hasRemaining pool) :=
  inferInstanceAs (Decidable (∃ t ∈ pool, 0 < t.remaining_hours))

/-- Splits the pool at its first item with positive remaining hours:
`available_tasks[0]` together with the items before and after it. The
source mutates that item in place and then `remove`s/`append`s it, which
on value-distinct pools is exactly `before ++ after ++ [updated item]`. -/
def splitFirst : List PoolItem → Option (List PoolItem × PoolItem × List PoolItem)
  | [] => none
  | item :: rest =>
    if 0 < item.remaining_hours then some ([], item, rest)
    else
      match splitFirst rest with
      | none => none
      | some (a, it, b) => some (item :: a, it, b)

/-- The inner `while day_hours_allocated < adjusted_hours_per_day and any(...)`
loop of one day. `base` is `len(schedule)` — the length of the global
schedule when the day starts, used for the session ids. The loop is
written with explicit fuel; every executed iteration allocates at least
0.5h (smaller sessions `break`), so with `fuel ≥ 2*adjusted + 1` the fuel
branch is unreachable and the recursion is exactly the source loop. -/
def dayLoop (prefs : Option UserPreferences) (adjusted_hours_per_day : ℚ) (day : ℤ)
    (base : ℕ) : ℕ → ℚ → List PoolItem → List Session → List PoolItem × List Session
  | 0, _, pool, acc => (pool, acc)
  | fuel + 1, day_hours_allocated, pool, acc =>
    if day_hours_allocated < adjusted_hours_per_day ∧ hasRemaining pool then
      match splitFirst pool with
      | none => (pool, acc)
      | some (before, item, after) =>
        let hours_left_today := adjusted_hours_per_day - day_hours_allocated
        let raw_hours := min (min (maxSessionLength prefs) item.remaining_hours) hours_left_today
        let session_hours := applyEstimationBias prefs raw_hours
        if session_hours < 0.5 then (pool, acc)
        else
          let session : Session :=
            { id := "session-" ++ toString base
              task_id := item.task.id.getD ""
              task_title := item.task.title
              course_code := item.task.course_code
              day := day
              priority := item.priority
              estimated_hours := pyRoundTo 1 session_hours }
          dayLoop prefs adjusted_hours_per_day day base fuel
            (day_hours_allocated + session_hours)
            (before ++ after ++ [{ item with remaining_hours := item.remaining_hours - session_hours }])
            (acc ++ [session])
    else (pool, acc)

/-- Fuel that makes the inner loop's fuel branch unreachable. -/
def dayFuel (adjusted_hours_per_day : ℚ) : ℕ := 2 * ⌈adjusted_hours_per_day⌉.toNat + 2

/-- The outer `for day_num in range(days_needed)` loop. -/
def daysLoop (prefs : Option UserPreferences) (adjusted_hours_per_day : ℚ) (start_day : ℤ) :
    ℕ → ℕ → List PoolItem → List Session → List PoolItem × List Session
  | 0, _, pool, schedule => (pool, schedule)
  | n + 1, day_num, pool, schedule =>
    let r := dayLoop prefs adjusted_hours_per_day (start_day + day_num) schedule.length
      (dayFuel adjusted_hours_per_day) 0 pool []
    daysLoop prefs adjusted_hours_per_day start_day n (day_num + 1) r.1 (schedule ++ r.2)

/-- The scheduling loops of `smart_schedule_sessions`: final pool state and
the generated sessions. `range` of a negative `days_needed` is empty, hence
`Int.toNat`. -/
def scheduleCore (tasks : List Task) (study_hours_per_day : ℕ) (start_day : ℤ)
    (prefs : Option UserPreferences) : List PoolItem × List Session :=
  let fz := feasibility tasks study_hours_per_day start_day
  daysLoop prefs (fz.adjusted_hours_per_day : ℚ) start_day fz.days_needed.toNat 0
    (initialPool (sortedTasks tasks)) []

/-- The dict returned by `smart_schedule_sessions`. -/
structure ScheduleResult where
  sessions : List Session
  total_hours : ℚ
  days_planned : ℤ
  warning : Option ℤ
  needs_more_hours : Bool
  adjusted_hours_per_day : ℤ
deriving DecidableEq

/-- `smart_schedule_sessions(tasks, study_hours_per_day, start_date,
user_preferences)`. `start_day` is the parsed (or defaulted-to-tomorrow)
start date normalized to midnight, as a day number. -/
def smart_schedule_sessions (tasks : List Task) (study_hours_per_day : ℕ) (start_day : ℤ)
    (prefs : Option UserPreferences) : ScheduleResult :=
  let fz := feasibility tasks study_hours_per_day start_day
  let core := scheduleCore tasks study_hours_per_day start_day prefs
  { sessions := core.2
    total_hours := totalHoursNeeded (sortedTasks tasks)
    days_planned := fz.days_needed
    warning := fz.warning
    needs_more_hours := fz.needs_more_hours
    adjusted_hours_per_day := fz.adjusted_hours_per_day }

/-- Sum of the recorded `estimated_hours` of the sessions of one task id. -/
def sessSum (tid : String) (sessions : List Session) : ℚ :=
  ((sessions.filter fun s => s.task_id == tid).map fun s => s.estimated_hours).sum

/-- Number of sessions of one task id. -/
def sessCount (tid : String) (sessions : List Session) : ℕ :=
  (sessions.filter fun s => s.task_id == tid).length

/-- The session key of a pool item (`task.get('id', '')`). -/
def poolKey (item : PoolItem) : String := item.task.id.getD ""

/-- Total remaining hours in the pool for one task id. -/
def poolRem (tid : String) (pool : List PoolItem) : ℚ :=
  ((pool.filter fun item => poolKey item == tid).map fun item => item.remaining_hours).sum

end StudyPlan

/-! ## Workflow Orchestrator — `backend/app/agents/orchestrator_agent.py`,
`_workflow_full_pipeline` and `_format_error_response` -/

namespace Orchestrator

/-- Modelled from the spec: `AgentStatus` lives in `agent_base.py`, which is
not among the provided sources; the spec says every stage call returns a
result-or-error value, and the orchestrator source only ever compares the
status against `ERROR` and `COMPLETED`. -/
inductive AgentStatus where
  | completed
  | error
deriving DecidableEq

/-- Modelled from the spec: `AgentResponse` from the missing `agent_base.py`
— a structured stage result with a status, a data payload, an error
message, and a timestamp (the fields the orchestrator reads). -/
structure AgentResponse (α : Type) where
  status : AgentStatus
  data : α
  error : Option String
  timestamp : String

/-- A task record flowing through the full pipeline, with the fields the
pipeline reads or writes. Enrichment (`task.update`) sets keys whose
values come from `.get` calls and may be `None`; both `None`-valued and
absent keys are modelled as `none`. -/
structure PTask where
  id : Option String
  title : String
  estimated_hours : Option ℚ
  stress_score : Option ℚ
  complexity : Option String
  priority_score : Option ℚ
  priority_rank : Option ℕ
deriving DecidableEq

/-- Payload of the parsing stage: `data.get("tasks", [])`. -/
structure ParseData where
  tasks : List PTask
deriving DecidableEq

/-- Payload of one workload prediction: the three keys the pipeline reads
through `.get`. -/
structure PredictData where
  estimated_hours : Option ℚ
  stress_score : Option ℚ
  complexity : Option String
deriving DecidableEq

/-- One priority entry as consumed by the pipeline. The source indexes
`p["rank"]` directly; entries that lack the key are modelled with
`rank = none` (in Python that access would raise `KeyError`). -/
structure PriorityItem where
  task_id : String
  priority_score : ℚ
  rank : Option ℕ
deriving DecidableEq

/-- Payload of the prioritization stage. -/
structure PriorityData where
  priorities : List PriorityItem
  high_priority_count : ℕ
deriving DecidableEq

/-- Payload of the scheduling stage. The schedule is a day-keyed dict the
pipeline copies wholesale and measures with `len`; its entries are opaque
here. -/
structure SchedData where
  schedule : List String
  workload_analysis : List String
  recommendations : List String
deriving DecidableEq

/-- The per-stage markers written into `results["stages"]`. -/
structure Stages where
  parsing_success : Bool
  tasks_found : ℕ
  workload_prediction_success : Bool
  tasks_analyzed : ℕ
  prioritization_success : Bool
  high_priority_count : ℕ
  scheduling_success : Bool
  days_scheduled : ℕ
deriving DecidableEq

/-- The `results` dict of a completed `_workflow_full_pipeline` run.
`schedule`/`workload_analysis`/`recommendations` are `none` when the
scheduling stage did not complete (the keys are then never written). -/
structure PipelineSuccess where
  success : Bool
  workflow : String
  stages : Stages
  schedule : Option (List String)
  workload_analysis : Option (List String)
  recommendations : Option (List String)
  tasks : List PTask
  total_tasks : ℕ
deriving DecidableEq

/-- The dict built by `OrchestratorAgent._format_error_response`. -/
structure FormattedError where
  success : Bool
  error : Option String
  agent : String
  timestamp : String
deriving DecidableEq

/-- A full-pipeline invocation returns either the error dict or the
results dict. -/
inductive PipelineResult where
  | failure (e : FormattedError)
  | ok (r : PipelineSuccess)

/-- `OrchestratorAgent._format_error_response`. -/
def format_error_response {α : Type} (agent_name : String) (response : AgentResponse α) :
    FormattedError :=
  { success := false
    error := response.error
    agent := agent_name
    timestamp := response.timestamp }

/-- Stage 2 per-task enrichment: `task.update({...})` only when the
prediction completed, the task is kept (and appended) either way. -/
def enrichTask (task : PTask) (resp : AgentResponse PredictData) : PTask :=
  if resp.status = .completed then
    { task with
      estimated_hours := resp.data.estimated_hours
      stress_score := resp.data.stress_score
      complexity := resp.data.complexity }
  else task

/-- Stage 3: write `priority_score`/`priority_rank` onto every task whose
id is a key of `priority_map`. The dict comprehension keeps the last entry
for a duplicated `task_id`, hence the reversed `find?`. -/
def applyPriorities (priorities : List PriorityItem) (tasks : List PTask) : List PTask :=
  tasks.map fun task =>
    let task_id := task.id.getD task.title
    match priorities.reverse.find? (fun p => p.task_id == task_id) with
    | some p =>
      { task with priority_score := some p.priority_score, priority_rank := p.rank }
    | none => task

/-- `OrchestratorAgent._workflow_full_pipeline`. The four collaborator
stage calls are inputs: the parse response, and the responses the
prediction / prioritization / scheduling agents would return for given
input (each already wrapped by `_execute_with_error_handling`, so stage
errors arrive as `status = error` responses, never as exceptions). The
read-only `context` threaded through every stage is not modelled. -/
def workflow_full_pipeline
    (parse_response : AgentResponse ParseData)
    (predict : PTask → AgentResponse PredictData)
    (prioritize : List PTask → AgentResponse PriorityData)
    (schedule : List PTask → AgentResponse SchedData) : PipelineResult :=
  if parse_response.status = .error then
    .failure (format_error_response "task_parsing" parse_response)
  else
    let tasks := parse_response.data.tasks
    let enriched_tasks := tasks.map fun task => enrichTask task (predict task)
    let priority_response := prioritize enriched_tasks
    let prioritized_tasks :=
      if priority_response.status = .completed then
        applyPriorities priority_response.data.priorities enriched_tasks
      else enriched_tasks
    let schedule_response := schedule prioritized_tasks
    .ok
      { success := true
        workflow := "full_pipeline"
        stages :=
          { parsing_success := true
            tasks_found := tasks.length
            workload_prediction_success := true
            tasks_analyzed := enriched_tasks.length
            prioritization_success := true
            high_priority_count := priority_response.data.high_priority_count
            scheduling_success := true
            days_scheduled := schedule_response.data.schedule.length }
        schedule :=
          if schedule_response.status = .completed then some schedule_response.data.schedule
          else none
        workload_analysis :=
          if schedule_response.status = .completed then some schedule_response.data.workload_analysis
          else none
        recommendations :=
          if schedule_response.status = .completed then some schedule_response.data.recommendations
          else none
        tasks := prioritized_tasks
        total_tasks := prioritized_tasks.length }

/-- Projection: the workload-prediction stage marker of a pipeline result,
when the run completed. -/
def workloadStageSuccess : PipelineResult → Option Bool
  | .failure _ => none
  | .ok r => some r.stages.workload_prediction_success

/-- Projection: the returned task list of a completed run. -/
def resultTasks : PipelineResult → Option (List PTask)
  | .failure _ => none
  | .ok r => some r.tasks

end Orchestrator

/-! ## Concrete inputs for witnesses and counterexamples -/

namespace Prioritization

/-- A minimal task with id `"a"`. -/
def taskA : Task :=
  { id := some "a", title := "Task A", due_days_until := none
    grade_percentage := none, stress_score := none, estimated_hours := none }

/-- A minimal task with id `"b"`. -/
def taskB : Task :=
  { id := some "b", title := "Task B", due_days_until := none
    grade_percentage := none, stress_score := none, estimated_hours := none }

/-- Two-task input list for the rank-fusion completeness check. -/
def c1tasks : List Task := [taskA, taskB]

/-- An external ranking that mentions only task `"a"` and carries no error. -/
def c1llm : LLMResult := { error := none, priorities := ["a"], explanations := [] }

/-- One-task input list for the error-fallback check. -/
def c7tasks : List Task := [taskA]

/-- An external ranking result carrying an error marker. -/
def c7llm : LLMResult := { error := some "LLM error", priorities := [], explanations := [] }

/-- A concrete in-range task for the priority-score witness. -/
def c9task : Task :=
  { id := some "t1", title := "Essay", due_days_until := some 5
    grade_percentage := some 25, stress_score := some 0.6, estimated_hours := some 4 }

end Prioritization

namespace Workload

/-- A concrete freeform analysis with confidence `0.5`. -/
def c4llm : LLMAnalysis :=
  { estimated_hours := 6, stress_score := 0.4, complexity := "medium"
    explanation := "Standard assignment", confidence := 0.5, breakdown := [] }

/-- A concrete calibrated prediction. -/
def c4ml : MLPrediction := { estimated_hours := 4 }

end Workload

namespace StudyPlan

/-- A task of 20 remaining hours due two days after the start date. -/
def c3task : Task :=
  { id := some "t", title := "Exam prep", course_code := none
    priority_score := none, predicted_hours := some 20, due_day := some 2 }

/-- A task with `0.3` remaining hours and no due date. -/
def c2task : Task :=
  { id := some "t", title := "Small task", course_code := none
    priority_score := none, predicted_hours := some 0.3, due_day := none }

/-- A task with zero remaining hours. -/
def c10task : Task :=
  { id := some "t", title := "Done task", course_code := none
    priority_score := none, predicted_hours := some 0, due_day := none }

/-- A two-hour task with no due date. -/
def c6task : Task :=
  { id := some "t", title := "Reading", course_code := none
    priority_score := none, predicted_hours := some 2, due_day := none }

/-- The single session generated for `c6task` with 2 hours/day from day 0. -/
def c6session : Session :=
  { id := "session-0", task_id := "t", task_title := "Reading", course_code := none
    day := 0, priority := 5, estimated_hours := 2 }

end StudyPlan

namespace Orchestrator

/-- A single parsed task. -/
def c5task : PTask :=
  { id := some "t", title := "Essay", estimated_hours := none, stress_score := none
    complexity := none, priority_score := none, priority_rank := none }

/-- A failed parsing-stage response. -/
def c5errorParse : AgentResponse ParseData :=
  { status := .error, data := ⟨[]⟩, error := some "parse failed", timestamp := "ts" }

/-- A completed parsing-stage response with one task. -/
def c5okParse : AgentResponse ParseData :=
  { status := .completed, data := ⟨[c5task]⟩, error := none, timestamp := "ts" }

/-- A prediction stage that errors for every task. -/
def c5predictErr : PTask → AgentResponse PredictData := fun _ =>
  { status := .error, data := ⟨none, none, none⟩
    error := some "prediction failed", timestamp := "ts" }

/-- A prioritization stage that errors. -/
def c5prioritizeErr : List PTask → AgentResponse PriorityData := fun _ =>
  { status := .error, data := ⟨[], 0⟩, error := some "prioritization failed", timestamp := "ts" }

/-- A scheduling stage that errors. -/
def c5scheduleErr : List PTask → AgentResponse SchedData := fun _ =>
  { status := .error, data := ⟨[], [], []⟩, error := some "scheduling failed", timestamp := "ts" }

end Orchestrator


/-! ## Theorems -/

theorem pyRound_ge_floor (q : ℚ) : ⌊q⌋ ≤ pyRound q := by
  unfold pyRound
  split_ifs <;> omega

/-- The rounding error of `pyRound` is at most one half. -/
theorem abs_pyRound_sub_le (q : ℚ) : |(pyRound q : ℚ) - q| ≤ 1/2 := by
  have hfl : (⌊q⌋ : ℚ) ≤ q := Int.floor_le q
  have hfu : q < (⌊q⌋ : ℚ) + 1 := Int.lt_floor_add_one q
  unfold pyRound
  rw [abs_le]
  split_ifs with h1 h2 h3
  · constructor <;> push_cast <;> linarith
  · constructor <;> push_cast <;> linarith
  · have he : q - (⌊q⌋ : ℚ) = 1/2 := le_antisymm (not_lt.mp h2) (not_lt.mp h1)
    constructor <;> push_cast <;> linarith
  · have he : q - (⌊q⌋ : ℚ) = 1/2 := le_antisymm (not_lt.mp h2) (not_lt.mp h1)
    constructor <;> push_cast <;> linarith

/-- Rounding to one decimal moves a value by at most `1/20`. -/
theorem abs_pyRoundTo_one_sub_le (q : ℚ) : |pyRoundTo 1 q - q| ≤ 1/20 := by
  have h := abs_pyRound_sub_le (q * 10 ^ 1)
  unfold pyRoundTo
  simp only [pow_one] at h ⊢
  have heq : (pyRound (q * 10) : ℚ) / 10 - q = ((pyRound (q * 10) : ℚ) - q * 10) / 10 := by
    ring
  rw [heq, abs_div]
  have h10 : |(10 : ℚ)| = 10 := by norm_num
  rw [h10, div_le_iff (by norm_num : (0:ℚ) < 10)]
  linarith

/-- A value at least `k` rounds to at least `k`. -/
theorem pyRound_ge_of_le {k : ℤ} {q : ℚ} (h : (k : ℚ) ≤ q) : k ≤ pyRound q := by
  have : k ≤ ⌊q⌋ := Int.le_floor.mpr h
  exact le_trans this (pyRound_ge_floor q)

/-- A value at least `1/2` stays at least `1/2` after rounding to one decimal. -/
theorem pyRoundTo_one_ge_half {q : ℚ} (h : 1/2 ≤ q) : 1/2 ≤ pyRoundTo 1 q := by
  unfold pyRoundTo
  simp only [pow_one]
  have h5 : (5 : ℤ) ≤ pyRound (q * 10) := by
    apply pyRound_ge_of_le
    push_cast
    nlinarith
  have h5q : (5 : ℚ) ≤ (pyRound (q * 10) : ℚ) := by exact_mod_cast h5
  rw [le_div_iff (by norm_num : (0:ℚ) < 10)]
  linarith

/-! ### Estimate fusion (C4) and freeform-failure defaults (C8) -/

namespace Workload

/-- C4: for every freeform confidence `c ∈ [0,1]`, the fusion weight equals
`0.3 + 0.3*c` and lies in `[0.3, 0.6]`, the two weights sum to exactly 1,
and the fused hours are `freeform.hours * llm_weight + calibrated.hours *
calibrated_weight` rounded to one decimal. -/
theorem C4_fusion_weights (llm_analysis : LLMAnalysis) (ml_prediction : MLPrediction)
    (h0 : 0 ≤ llm_analysis.confidence) (h1 : llm_analysis.confidence ≤ 1) :
    0.3 + llm_analysis.confidence * 0.3 = 0.3 + 0.3 * llm_analysis.confidence
    ∧ 0.3 ≤ 0.3 + llm_analysis.confidence * 0.3
    ∧ 0.3 + llm_analysis.confidence * 0.3 ≤ 0.6
    ∧ (0.3 + llm_analysis.confidence * 0.3) + (1.0 - (0.3 + llm_analysis.confidence * 0.3)) = 1.0
    ∧ (combine_predictions llm_analysis ml_prediction).estimated_hours
        = pyRoundTo 1 (llm_analysis.estimated_hours * (0.3 + llm_analysis.confidence * 0.3)
            + ml_prediction.estimated_hours * (1.0 - (0.3 + llm_analysis.confidence * 0.3))) := by
  refine ⟨by ring, by linarith, by linarith, by ring, ?_⟩
  simp only [combine_predictions]

/-- C4 (witness): the fusion theorem instantiated at confidence `0.5`. -/
theorem C4_fusion_weights_witness :
    0.3 ≤ 0.3 + c4llm.confidence * 0.3
    ∧ 0.3 + c4llm.confidence * 0.3 ≤ 0.6
    ∧ (combine_predictions c4llm c4ml).estimated_hours
        = pyRoundTo 1 (c4llm.estimated_hours * (0.3 + c4llm.confidence * 0.3)
            + c4ml.estimated_hours * (1.0 - (0.3 + c4llm.confidence * 0.3))) := by
  have h := C4_fusion_weights c4llm c4ml (by norm_num [c4llm]) (by norm_num [c4llm])
  exact ⟨h.2.1, h.2.2.1, h.2.2.2.2⟩

end Workload

namespace LLMService

/-- C8: when the freeform estimator fails or returns malformed data
(any raised exception, i.e. the `failure` outcome), `analyze_task_workload`
returns the fixed defaults `estimated_hours = 3.0`, `stress_score = 0.5`,
`complexity = "medium"`, `confidence = 0.3`; being a total function into
`WorkloadAnalysis`, it propagates no error. -/
theorem C8_failure_defaults :
    analyze_task_workload .failure =
      { estimated_hours := 3.0
        stress_score := 0.5
        complexity := "medium"
        explanation := "Error in analysis, using default estimates"
        confidence := 0.3 } := rfl

end LLMService

/-! ### Priority scorer (C9, C1, C7) -/

namespace Prioritization

/-- The urgency step function always lies in `[0.3, 1]`. -/
theorem calculate_urgency_bounds (d : Option ℤ) :
    0.3 ≤ calculate_urgency d ∧ calculate_urgency d ≤ 1 := by
  cases d with
  | none => constructor <;> norm_num [calculate_urgency]
  | some k =>
    simp only [calculate_urgency]
    split_ifs <;> norm_num

/-- C9: for in-range inputs (`grade ∈ [0,100]`, `stress ∈ [0,1]`,
`hours ≥ 0`), the heuristic score equals
`0.4*urgency + 0.3*(grade/100) + 0.2*stress + 0.1*min(hours/20, 1)`
with the urgency step function, and lies in `[0,1]`. -/
theorem C9_priority_score_formula (task : Task)
    (hg0 : 0 ≤ task.grade_percentage.getD 10) (hg1 : task.grade_percentage.getD 10 ≤ 100)
    (hs0 : 0 ≤ task.stress_score.getD 0.5) (hs1 : task.stress_score.getD 0.5 ≤ 1)
    (hh : 0 ≤ task.estimated_hours.getD 3) :
    calculate_priority_score task =
      0.4 * calculate_urgency task.due_days_until
      + 0.3 * (task.grade_percentage.getD 10 / 100)
      + 0.2 * task.stress_score.getD 0.5
      + 0.1 * min (task.estimated_hours.getD 3 / 20) 1
    ∧ 0 ≤ calculate_priority_score task
    ∧ calculate_priority_score task ≤ 1 := by
  obtain ⟨hu0, hu1⟩ := calculate_urgency_bounds task.due_days_until
  have hm0 : (0:ℚ) ≤ min (task.estimated_hours.getD 3 / 20) 1 :=
    le_min (by positivity) (by norm_num)
  have hm1 : min (task.estimated_hours.getD 3 / 20) 1 ≤ 1 := min_le_right _ _
  have hg : task.grade_percentage.getD 10 / 100 ≤ 1 := by linarith
  have hg2 : 0 ≤ task.grade_percentage.getD 10 / 100 := by positivity
  have hscore : calculate_priority_score task =
      calculate_urgency task.due_days_until * 0.4
      + task.grade_percentage.getD 10 / 100 * 0.3
      + task.stress_score.getD 0.5 * 0.2
      + min (task.estimated_hours.getD 3 / 20) 1 * 0.1 := by
    simp only [calculate_priority_score]
    exact min_eq_left (by linarith)
  rw [hscore]
  refine ⟨by ring, by linarith, by linarith⟩

/-- C9 (witness): score bounds at a concrete in-range task. -/
theorem C9_priority_score_formula_witness :
    0 ≤ calculate_priority_score c9task ∧ calculate_priority_score c9task ≤ 1 :=
  (C9_priority_score_formula c9task (by norm_num [c9task]) (by norm_num [c9task])
    (by norm_num [c9task]) (by norm_num [c9task]) (by norm_num [c9task])).2

/-- The enumeration loop of `_combine_prioritizations` emits exactly one
entry per external-ranking id, in order. -/
theorem combineGo_map_task_id (rule_based : List PriorityEntry)
    (explanations : List (String × String)) (n : ℕ) :
    ∀ (i : ℕ) (ids : List String),
      (combineGo rule_based explanations n i ids).map (fun e => e.task_id) = ids := by
  intro i ids
  induction ids generalizing i with
  | nil => simp [combineGo]
  | cons hd tl ih =>
    simp only [combineGo]
    cases hfind : rule_based.find? (fun r => r.task_id == hd) <;>
      simp [ih]

/-- C1 (counterexample): with inputs `[task a, task b]` and an external
ranking listing only `"a"`, task `"b"` appears zero times in the fused
output — the fused output does not contain exactly one entry per input
task id. -/
theorem C1_counterexample :
    ¬ ∀ task ∈ c1tasks,
        (combine_prioritizations c1llm (rule_based_prioritization c1tasks) c1tasks).countP
          (fun e => e.task_id == taskKey task) = 1 := by
  intro h
  have hb := h taskB (by simp [c1tasks])
  have hmap : (combine_prioritizations c1llm (rule_based_prioritization c1tasks) c1tasks).map
      (fun e => e.task_id) = ["a"] := by
    simp only [combine_prioritizations, c1llm, Option.isSome_none, Bool.false_eq_true, if_false]
    exact combineGo_map_task_id _ _ _ 0 _
  have hkey : taskKey taskB = "b" := rfl
  rw [hkey] at hb
  have hcount : (combine_prioritizations c1llm (rule_based_prioritization c1tasks) c1tasks).countP
      (fun e => e.task_id == "b")
      = ((combine_prioritizations c1llm (rule_based_prioritization c1tasks) c1tasks).map
          (fun e => e.task_id)).countP (fun s => s == "b") := by
    rw [List.countP_map]
    rfl
  rw [hcount, hmap] at hb
  simp at hb

/-- C1 (amended): when the external ranking is available (no error), the
fused output's task ids are exactly the external ranking's ids in order —
so an input task absent from the external ranking is dropped, and every id
of the external ranking appears. -/
theorem C1_fused_output_ids (llm_result : LLMResult) (rule_based : List PriorityEntry)
    (tasks : List Task) (h : llm_result.error = none) :
    (combine_prioritizations llm_result rule_based tasks).map (fun e => e.task_id)
      = llm_result.priorities := by
  unfold combine_prioritizations
  rw [h]
  simp only [Option.isSome_none, Bool.false_eq_true, if_false]
  exact combineGo_map_task_id rule_based llm_result.explanations
    (max llm_result.priorities.length 1) 0 llm_result.priorities

/-- C1 (witness): the amended theorem at the concrete two-task input. -/
theorem C1_fused_output_ids_witness :
    (combine_prioritizations c1llm (rule_based_prioritization c1tasks) c1tasks).map
        (fun e => e.task_id) = c1llm.priorities :=
  C1_fused_output_ids c1llm (rule_based_prioritization c1tasks) c1tasks rfl

/-- C7 (counterexample): when the external ranking errors, the fallback
output's entries carry no rank key at all — not a 1-based rank. -/
theorem C7_counterexample :
    ¬ ∀ e ∈ combine_prioritizations c7llm (rule_based_prioritization c7tasks) c7tasks,
        e.rank.isSome = true := by
  intro h
  have hout : combine_prioritizations c7llm (rule_based_prioritization c7tasks) c7tasks
      = rule_based_prioritization c7tasks := by
    simp [combine_prioritizations, c7llm]
  have hr : rule_based_prioritization c7tasks =
      [{ task_id := taskKey taskA
         priority_score := calculate_priority_score taskA
         rank := none
         explanation := none
         factors := get_priority_factors taskA }] := by
    simp [rule_based_prioritization, c7tasks, List.insertionSort]
  have hm := h _ (by rw [hout, hr]; exact List.mem_singleton_self _)
  simp at hm

/-- C7 (amended): on an external-ranking error the output is the heuristic
ranking unmodified — sorted descending by heuristic score — but its
entries carry no rank field (ranks are only assigned on the fusion path). -/
theorem C7_error_fallback (llm_result : LLMResult) (tasks : List Task)
    (h : llm_result.error.isSome = true) :
    combine_prioritizations llm_result (rule_based_prioritization tasks) tasks
        = rule_based_prioritization tasks
    ∧ (rule_based_prioritization tasks).Sorted scoreGE
    ∧ ∀ e ∈ rule_based_prioritization tasks, e.rank = none := by
  refine ⟨?_, ?_, ?_⟩
  · simp [combine_prioritizations, h]
  · simp only [rule_based_prioritization]
    exact List.sorted_insertionSort scoreGE _
  · intro e he
    simp only [rule_based_prioritization] at he
    have hperm := List.perm_insertionSort scoreGE
      (tasks.map fun task =>
        { task_id := taskKey task
          priority_score := calculate_priority_score task
          rank := none
          explanation := none
          factors := get_priority_factors task : PriorityEntry })
    rw [hperm.mem_iff] at he
    obtain ⟨t, _, rfl⟩ := List.mem_map.mp he
    rfl

/-- C7 (witness): the amended theorem at the concrete error input. -/
theorem C7_error_fallback_witness :
    combine_prioritizations c7llm (rule_based_prioritization c7tasks) c7tasks
      = rule_based_prioritization c7tasks :=
  (C7_error_fallback c7llm c7tasks rfl).1

end Prioritization

/-! ### Session scheduler (C3, C10, C6, C2) -/

namespace StudyPlan

/-- C3: if the earliest due date is a positive number of days after the
start and the required daily rate exceeds the requested one, the scheduler
flags `needs_more_hours`, adjusts the daily rate to the ceiling of
`total / days_until_due`, caps the horizon to `days_until_due`, and emits
a warning naming the adjusted rate. -/
theorem C3_feasibility_check (tasks : List Task) (study_hours_per_day : ℕ) (start_day : ℤ)
    (prefs : Option UserPreferences) (ed : ℤ)
    (hed : earliestDue (sortedTasks tasks) = some ed)
    (hpos : 0 < ed - start_day)
    (hover : (study_hours_per_day : ℚ)
        < totalHoursNeeded (sortedTasks tasks) / ((ed - start_day : ℤ) : ℚ)) :
    (smart_schedule_sessions tasks study_hours_per_day start_day prefs).needs_more_hours = true
    ∧ (smart_schedule_sessions tasks study_hours_per_day start_day prefs).adjusted_hours_per_day
        = ⌈totalHoursNeeded (sortedTasks tasks) / ((ed - start_day : ℤ) : ℚ)⌉
    ∧ (smart_schedule_sessions tasks study_hours_per_day start_day prefs).days_planned
        = ed - start_day
    ∧ (smart_schedule_sessions tasks study_hours_per_day start_day prefs).warning
        = some ⌈totalHoursNeeded (sortedTasks tasks) / ((ed - start_day : ℤ) : ℚ)⌉ := by
  have hfz : feasibility tasks study_hours_per_day start_day =
      { days_needed := ed - start_day
        needs_more_hours := true
        adjusted_hours_per_day :=
          ⌈totalHoursNeeded (sortedTasks tasks) / ((ed - start_day : ℤ) : ℚ)⌉
        warning := some ⌈totalHoursNeeded (sortedTasks tasks) / ((ed - start_day : ℤ) : ℚ)⌉ } := by
    simp only [feasibility, hed]
    rw [if_pos hpos, if_pos hover]
  refine ⟨?_, ?_, ?_, ?_⟩ <;> simp [smart_schedule_sessions, hfz]

/-- C3 (witness): a 20-hour task due in 2 days at 5 hours/day yields
`needs_more_hours = true` and `adjusted_hours_per_day = 10`. -/
theorem C3_feasibility_check_witness :
    (smart_schedule_sessions [c3task] 5 0 none).needs_more_hours = true
    ∧ (smart_schedule_sessions [c3task] 5 0 none).adjusted_hours_per_day = 10 := by
  have hed : earliestDue (sortedTasks [c3task]) = some 2 := by
    simp [earliestDue, sortedTasks, List.insertionSort, c3task]
  have htot : totalHoursNeeded (sortedTasks [c3task]) = 20 := by
    simp [totalHoursNeeded, sortedTasks, List.insertionSort, c3task]
  have h := C3_feasibility_check [c3task] 5 0 none 2 hed (by norm_num)
    (by rw [htot]; norm_num)
  refine ⟨h.1, ?_⟩
  rw [h.2.1, htot]
  norm_num

/-- C10: scheduling a task list in which every task has zero remaining
hours produces zero sessions and zero days planned. -/
theorem C10_zero_hours (tasks : List Task) (study_hours_per_day : ℕ) (start_day : ℤ)
    (prefs : Option UserPreferences)
    (hpos : 1 ≤ study_hours_per_day)
    (hzero : ∀ t ∈ tasks, t.predicted_hours = some 0) :
    (smart_schedule_sessions tasks study_hours_per_day start_day prefs).sessions = []
    ∧ (smart_schedule_sessions tasks study_hours_per_day start_day prefs).days_planned = 0 := by
  have hzs : ∀ t ∈ sortedTasks tasks, t.predicted_hours = some 0 := by
    intro t ht
    simp only [sortedTasks] at ht
    exact hzero t ((List.perm_insertionSort sortLE tasks).mem_iff.mp ht)
  have htot : totalHoursNeeded (sortedTasks tasks) = 0 := by
    apply List.sum_eq_zero
    intro x hx
    obtain ⟨t, ht, rfl⟩ := List.mem_map.mp hx
    rw [hzs t ht]
    rfl
  have hnotlt : ¬ ((study_hours_per_day : ℚ) < 0) := by
    have : (0:ℚ) ≤ (study_hours_per_day : ℚ) := by positivity
    linarith
  have hdays : (feasibility tasks study_hours_per_day start_day).days_needed = 0 := by
    simp only [feasibility, htot]
    cases hed : earliestDue (sortedTasks tasks) with
    | none => simp
    | some ed =>
      dsimp only
      by_cases hdu : 0 < ed - start_day
      · rw [if_pos hdu, if_neg (by rw [zero_div]; exact hnotlt)]
        simp
      · rw [if_neg hdu]
        simp
  constructor
  · simp only [smart_schedule_sessions, scheduleCore, hdays]
    simp [daysLoop]
  · simp [smart_schedule_sessions, hdays]

/-- C10 (witness): the zero-hours theorem at a concrete one-task list. -/
theorem C10_zero_hours_witness :
    (smart_schedule_sessions [c10task] 2 0 none).sessions = []
    ∧ (smart_schedule_sessions [c10task] 2 0 none).days_planned = 0 :=
  C10_zero_hours [c10task] 2 0 none (by norm_num)
    (by intro t ht; rw [List.mem_singleton.mp ht]; rfl)

/-- Every session the inner day loop adds has `estimated_hours ≥ 0.5`:
a computed session length below 0.5 stops the loop instead, and lengths
at least 0.5 stay at least 0.5 after rounding to one decimal. -/
theorem dayLoop_est_ge_half (prefs : Option UserPreferences) (adj : ℚ) (day : ℤ) (base : ℕ) :
    ∀ (fuel : ℕ) (alloc : ℚ) (pool : List PoolItem) (acc : List Session),
      (∀ s ∈ acc, (1:ℚ)/2 ≤ s.estimated_hours) →
      ∀ s ∈ (dayLoop prefs adj day base fuel alloc pool acc).2, (1:ℚ)/2 ≤ s.estimated_hours := by
  intro fuel
  induction fuel with
  | zero =>
    intro alloc pool acc hacc s hs
    simp only [dayLoop] at hs
    exact hacc s hs
  | succ n ih =>
    intro alloc pool acc hacc s hs
    simp only [dayLoop] at hs
    split at hs
    · split at hs
      · exact hacc s hs
      · rename_i before item after heq
        split at hs
        · exact hacc s hs
        · rename_i hlt
          refine ih _ _ _ ?_ s hs
          intro s2 hs2
          rcases List.mem_append.mp hs2 with h2 | h2
          · exact hacc s2 h2
          · rw [List.mem_singleton.mp h2]
            have hge : (0.5:ℚ) ≤ applyEstimationBias prefs
                (min (min (maxSessionLength prefs) item.remaining_hours)
                  (adj - alloc)) := not_lt.mp hlt
            have hr := pyRoundTo_one_ge_half (q := applyEstimationBias prefs
                (min (min (maxSessionLength prefs) item.remaining_hours)
                  (adj - alloc))) (by linarith)
            simpa using hr
    · exact hacc s hs

/-- Lifts the per-day bound through the outer days loop. -/
theorem daysLoop_est_ge_half (prefs : Option UserPreferences) (adj : ℚ) (start_day : ℤ) :
    ∀ (n day_num : ℕ) (pool : List PoolItem) (sched : List Session),
      (∀ s ∈ sched, (1:ℚ)/2 ≤ s.estimated_hours) →
      ∀ s ∈ (daysLoop prefs adj start_day n day_num pool sched).2,
        (1:ℚ)/2 ≤ s.estimated_hours := by
  intro n
  induction n with
  | zero =>
    intro day_num pool sched hsched s hs
    simp only [daysLoop] at hs
    exact hsched s hs
  | succ m ih =>
    intro day_num pool sched hsched s hs
    simp only [daysLoop] at hs
    refine ih _ _ _ ?_ s hs
    intro s2 hs2
    rcases List.mem_append.mp hs2 with h2 | h2
    · exact hsched s2 h2
    · exact dayLoop_est_ge_half prefs adj _ _ _ _ _ _ (by simp) s2 h2

/-- C6: every generated session has `estimated_hours ≥ 0.5`, for every
task list, daily-hours setting, start date, and preference combination. -/
theorem C6_no_micro_sessions (tasks : List Task) (study_hours_per_day : ℕ) (start_day : ℤ)
    (prefs : Option UserPreferences) :
    ∀ s ∈ (smart_schedule_sessions tasks study_hours_per_day start_day prefs).sessions,
      (0.5:ℚ) ≤ s.estimated_hours := by
  intro s hs
  simp only [smart_schedule_sessions, scheduleCore] at hs
  have h12 := daysLoop_est_ge_half _ _ _ _ _ _ _ (by simp) s hs
  linarith

/-- The day loop's final pool does not depend on the accumulator, and its
sessions output extends `acc` by the sessions of an empty-accumulator run
(the accumulator is only read to be appended to). -/
theorem dayLoop_acc (prefs : Option UserPreferences) (adj : ℚ) (day : ℤ) (base : ℕ) :
    ∀ (fuel : ℕ) (alloc : ℚ) (pool : List PoolItem) (acc : List Session),
      (dayLoop prefs adj day base fuel alloc pool acc).1
          = (dayLoop prefs adj day base fuel alloc pool []).1
      ∧ (dayLoop prefs adj day base fuel alloc pool acc).2
          = acc ++ (dayLoop prefs adj day base fuel alloc pool []).2 := by
  intro fuel
  induction fuel with
  | zero =>
    intro alloc pool acc
    simp [dayLoop]
  | succ n ih =>
    intro alloc pool acc
    simp only [dayLoop]
    split
    · split
      · simp
      · split
        · simp
        · rename_i before item after heq hlt
          constructor
          · conv_lhs => rw [(ih _ _ _).1]
            conv_rhs => rw [(ih _ _ _).1]
          · conv_lhs => rw [(ih _ _ _).2]
            conv_rhs => rw [(ih _ _ _).2]
            simp
    · simp

/-- Evaluation: the two-hour task at 2 hours/day yields a non-empty
session list (one full-length session on day one). -/
theorem c6_sessions_ne_nil : (smart_schedule_sessions [c6task] 2 0 none).sessions ≠ [] := by
  norm_num [smart_schedule_sessions, scheduleCore, feasibility, sortedTasks,
    List.insertionSort, List.orderedInsert, totalHoursNeeded, earliestDue, initialPool,
    daysLoop, dayLoop, dayFuel, hasRemaining, splitFirst, maxSessionLength,
    applyEstimationBias, c6task, min_def]

/-- C6 (witness): the first generated session of the concrete run is at
least half an hour. -/
theorem C6_no_micro_sessions_witness :
    (0.5:ℚ) ≤ ((smart_schedule_sessions [c6task] 2 0 none).sessions.head!).estimated_hours :=
  C6_no_micro_sessions [c6task] 2 0 none _ (List.head!_mem_self c6_sessions_ne_nil)

/-- The outer days loop only appends sessions: its output extends `sched`. -/
theorem daysLoop_sched_prefix (prefs : Option UserPreferences) (adj : ℚ) (start_day : ℤ) :
    ∀ (n day_num : ℕ) (pool : List PoolItem) (sched : List Session),
      ∃ t, (daysLoop prefs adj start_day n day_num pool sched).2 = sched ++ t := by
  intro n
  induction n with
  | zero =>
    intro day_num pool sched
    exact ⟨[], by simp [daysLoop]⟩
  | succ m ih =>
    intro day_num pool sched
    simp only [daysLoop]
    obtain ⟨t1, ht1⟩ := ih (day_num + 1)
      (dayLoop prefs adj (start_day + day_num) sched.length (dayFuel adj) 0 pool []).1
      (sched ++ (dayLoop prefs adj (start_day + day_num) sched.length (dayFuel adj) 0 pool []).2)
    exact ⟨_, by rw [ht1, List.append_assoc]⟩

theorem sessSum_nil (tid : String) : sessSum tid [] = 0 := rfl

theorem sessSum_cons (tid : String) (s : Session) (l : List Session) :
    sessSum tid (s :: l) = (if s.task_id == tid then s.estimated_hours else 0) + sessSum tid l := by
  by_cases h : s.task_id == tid <;> simp [sessSum, List.filter_cons, h]

theorem sessSum_append (tid : String) (l1 l2 : List Session) :
    sessSum tid (l1 ++ l2) = sessSum tid l1 + sessSum tid l2 := by
  simp [sessSum, List.filter_append]

theorem sessCount_nil (tid : String) : sessCount tid [] = 0 := rfl

theorem sessCount_cons (tid : String) (s : Session) (l : List Session) :
    sessCount tid (s :: l) = (if s.task_id == tid then 1 else 0) + sessCount tid l := by
  by_cases h : s.task_id == tid <;> simp [sessCount, List.filter_cons, h, Nat.add_comm]

theorem sessCount_append (tid : String) (l1 l2 : List Session) :
    sessCount tid (l1 ++ l2) = sessCount tid l1 + sessCount tid l2 := by
  simp [sessCount, List.filter_append]

theorem poolRem_nil (tid : String) : poolRem tid [] = 0 := rfl

theorem poolRem_cons (tid : String) (x : PoolItem) (l : List PoolItem) :
    poolRem tid (x :: l) = (if poolKey x == tid then x.remaining_hours else 0) + poolRem tid l := by
  by_cases h : poolKey x == tid <;> simp [poolRem, List.filter_cons, h]

theorem poolRem_append (tid : String) (l1 l2 : List PoolItem) :
    poolRem tid (l1 ++ l2) = poolRem tid l1 + poolRem tid l2 := by
  simp [poolRem, List.filter_append]

/-- `splitFirst` really splits the pool around its found item. -/
theorem splitFirst_eq : ∀ (pool before : List PoolItem) (item : PoolItem)
    (after : List PoolItem), splitFirst pool = some (before, item, after) →
    pool = before ++ item :: after := by
  intro pool
  induction pool with
  | nil => intro b i a h; simp [splitFirst] at h
  | cons hd tl ih =>
    intro b i a h
    simp only [splitFirst] at h
    split at h
    · simp only [Option.some.injEq, Prod.mk.injEq] at h
      obtain ⟨hb, hi, ha⟩ := h
      subst hb; subst hi; subst ha
      simp
    · split at h
      · exact absurd h (by simp)
      · rename_i a2 it2 b2 heq2
        simp only [Option.some.injEq, Prod.mk.injEq] at h
        obtain ⟨hb, hi, ha⟩ := h
        subst hb; subst hi; subst ha
        have := ih _ _ _ heq2
        rw [this]
        simp

/-- One day of scheduling conserves hours per task id up to one rounding
error (at most `1/20`) per created session: recorded session hours of a
task id, plus what remains in the pool for it, equal what the pool held
for it before the day, within `count/20`. -/
theorem dayLoop_conservation (tid : String) (prefs : Option UserPreferences) (adj : ℚ)
    (day : ℤ) (base : ℕ) :
    ∀ (fuel : ℕ) (alloc : ℚ) (pool : List PoolItem),
      |sessSum tid (dayLoop prefs adj day base fuel alloc pool []).2
          + poolRem tid (dayLoop prefs adj day base fuel alloc pool []).1
          - poolRem tid pool|
        ≤ (sessCount tid (dayLoop prefs adj day base fuel alloc pool []).2 : ℚ) / 20 := by
  intro fuel
  induction fuel with
  | zero =>
    intro alloc pool
    simp [dayLoop, sessSum_nil, sessCount_nil]
  | succ n ih =>
    intro alloc pool
    simp only [dayLoop]
    split
    · split
      · simp [sessSum_nil, sessCount_nil]
      · rename_i before item after heq
        split
        · simp [sessSum_nil, sessCount_nil]
        · rename_i hlt
          rw [(dayLoop_acc prefs adj day base n _ _ _).1,
            (dayLoop_acc prefs adj day base n _ _ _).2]
          simp only [List.nil_append, List.singleton_append]
          have hsp := splitFirst_eq pool before item after heq
          subst hsp
          rw [sessSum_cons, sessCount_cons, poolRem_append, poolRem_cons]
          dsimp only
          set s := applyEstimationBias prefs
            (min (min (maxSessionLength prefs) item.remaining_hours) (adj - alloc)) with hs
          have hih := ih (alloc + s) (before ++ after ++
            [{ item with remaining_hours := item.remaining_hours - s }])
          rw [poolRem_append, poolRem_append, poolRem_cons, poolRem_nil] at hih
          dsimp only at hih
          have hr := abs_pyRoundTo_one_sub_le s
          by_cases hm : (item.task.id.getD "" == tid) = true
          · simp only [poolKey, hm, eq_self_iff_true, if_true] at hih ⊢
            rw [abs_le] at hih hr ⊢
            constructor <;> push_cast <;> linarith [hih.1, hih.2, hr.1, hr.2]
          · have hmb : (item.task.id.getD "" == tid) = false := by
              simpa using hm
            simp only [poolKey, hmb, Bool.false_eq_true, if_false] at hih ⊢
            rw [abs_le] at hih ⊢
            constructor <;> push_cast <;> linarith [hih.1, hih.2]
    · simp [sessSum_nil, sessCount_nil]

/-- The whole planning horizon conserves hours per task id up to one
rounding error per created session. -/
theorem daysLoop_conservation (tid : String) (prefs : Option UserPreferences) (adj : ℚ)
    (start_day : ℤ) :
    ∀ (n day_num : ℕ) (pool : List PoolItem) (sched : List Session),
      |sessSum tid (daysLoop prefs adj start_day n day_num pool sched).2
          + poolRem tid (daysLoop prefs adj start_day n day_num pool sched).1
          - (sessSum tid sched + poolRem tid pool)|
        ≤ ((sessCount tid (daysLoop prefs adj start_day n day_num pool sched).2 : ℚ)
            - sessCount tid sched) / 20 := by
  intro n
  induction n with
  | zero =>
    intro day_num pool sched
    simp [daysLoop]
  | succ m ih =>
    intro day_num pool sched
    simp only [daysLoop]
    have hday := dayLoop_conservation tid prefs adj (start_day + day_num) sched.length
      (dayFuel adj) 0 pool
    have hrec := ih (day_num + 1)
      (dayLoop prefs adj (start_day + day_num) sched.length (dayFuel adj) 0 pool []).1
      (sched ++ (dayLoop prefs adj (start_day + day_num) sched.length (dayFuel adj) 0 pool []).2)
    rw [sessSum_append, sessCount_append] at hrec
    rw [abs_le] at hday hrec ⊢
    constructor <;> push_cast at hday hrec ⊢ <;>
      linarith [hday.1, hday.2, hrec.1, hrec.2]

/-- C2 (amended): for every task id, the sum of the recorded session hours
differs from the hours actually drained from the task pool (pre-schedule
remaining hours minus what is still unscheduled at the end of the
horizon) by at most `0.05` per session — per-session rounding to one
decimal. The drained amount can be strictly less than the pre-schedule
remaining hours, so the sum need not equal them within `0.01`. -/
theorem C2_session_sum_conservation (tid : String) (tasks : List Task)
    (study_hours_per_day : ℕ) (start_day : ℤ) (prefs : Option UserPreferences) :
    |sessSum tid (smart_schedule_sessions tasks study_hours_per_day start_day prefs).sessions
        - (poolRem tid (initialPool (sortedTasks tasks))
            - poolRem tid (scheduleCore tasks study_hours_per_day start_day prefs).1)|
      ≤ (sessCount tid
          (smart_schedule_sessions tasks study_hours_per_day start_day prefs).sessions : ℚ)
        / 20 := by
  have h := daysLoop_conservation tid prefs
    (((feasibility tasks study_hours_per_day start_day).adjusted_hours_per_day : ℤ) : ℚ)
    start_day (feasibility tasks study_hours_per_day start_day).days_needed.toNat 0
    (initialPool (sortedTasks tasks)) []
  rw [sessSum_nil, sessCount_nil] at h
  simp only [smart_schedule_sessions, scheduleCore]
  rw [abs_le] at h ⊢
  constructor <;> push_cast at h ⊢ <;> linarith [h.1, h.2]

/-- C2 (counterexample): a task with remaining hours `r = 0.3 > 0`
(2 hours/day, start day 0, no preferences) receives no session at all —
its session-hours sum is `0`, which misses `r` by more than the claimed
`0.01` tolerance. -/
theorem C2_counterexample :
    ¬ |sessSum "t" (smart_schedule_sessions [c2task] 2 0 none).sessions - 0.3| ≤ 0.01 := by
  have hceil : (⌈(3/20 : ℚ)⌉ : ℤ) = 1 := by
    rw [Int.ceil_eq_iff] <;> norm_num
  have hsess : (smart_schedule_sessions [c2task] 2 0 none).sessions = [] := by
    norm_num [smart_schedule_sessions, scheduleCore, feasibility, sortedTasks,
      List.insertionSort, List.orderedInsert, totalHoursNeeded, earliestDue, initialPool,
      daysLoop, dayLoop, dayFuel, hasRemaining, splitFirst, maxSessionLength,
      applyEstimationBias, c2task, min_def, hceil]
  rw [hsess, sessSum_nil, zero_sub, abs_neg, abs_of_nonneg (by norm_num : (0:ℚ) ≤ 0.3)]
  norm_num

end StudyPlan

/-! ### Workflow orchestrator (C5) -/

namespace Orchestrator

/-- C5 (amended): a parsing-stage error aborts the full pipeline with a
structured failure naming the stage (`agent = "task_parsing"`); a
workload-prediction error does not abort — with parsing completed and
every per-task prediction (and the prioritization stage) failing, the
parsed tasks are still returned unchanged, but the stages record marks
the prediction stage `success = true`: no partial-failure marker exists. -/
theorem C5_pipeline_error_policy
    (parse_response : AgentResponse ParseData)
    (predict : PTask → AgentResponse PredictData)
    (prioritize : List PTask → AgentResponse PriorityData)
    (schedule : List PTask → AgentResponse SchedData) :
    (parse_response.status = .error →
      workflow_full_pipeline parse_response predict prioritize schedule
        = .failure (format_error_response "task_parsing" parse_response))
    ∧ (parse_response.status = .completed →
        (∀ task, (predict task).status = .error) →
        (prioritize parse_response.data.tasks).status = .error →
        resultTasks (workflow_full_pipeline parse_response predict prioritize schedule)
            = some parse_response.data.tasks
          ∧ workloadStageSuccess
              (workflow_full_pipeline parse_response predict prioritize schedule)
            = some true) := by
  constructor
  · intro herr
    simp [workflow_full_pipeline, herr]
  · intro hok hpred hprio
    have hnoterr : ¬ parse_response.status = .error := by
      rw [hok]
      simp
    have henrich : parse_response.data.tasks.map
        (fun task => enrichTask task (predict task)) = parse_response.data.tasks := by
      conv_rhs => rw [← List.map_id parse_response.data.tasks]
      apply List.map_congr_left
      intro task _
      simp [enrichTask, hpred task]
    simp only [workflow_full_pipeline]
    rw [if_neg hnoterr]
    simp only [henrich, hprio]
    simp [resultTasks, workloadStageSuccess]

/-- C5 (counterexample): parsing succeeds, every per-task prediction
errors — yet the returned stages record carries
`workload_prediction.success = true`, not a partial-failure marker. -/
theorem C5_counterexample :
    workloadStageSuccess
        (workflow_full_pipeline c5okParse c5predictErr c5prioritizeErr c5scheduleErr)
      = some true := rfl

/-- C5 (witness): the two error policies at concrete stage responses. -/
theorem C5_pipeline_error_policy_witness :
    workflow_full_pipeline c5errorParse c5predictErr c5prioritizeErr c5scheduleErr
        = .failure (format_error_response "task_parsing" c5errorParse)
    ∧ resultTasks (workflow_full_pipeline c5okParse c5predictErr c5prioritizeErr c5scheduleErr)
        = some c5okParse.data.tasks := by
  constructor
  · exact (C5_pipeline_error_policy c5errorParse c5predictErr c5prioritizeErr c5scheduleErr).1 rfl
  · exact ((C5_pipeline_error_policy c5okParse c5predictErr c5prioritizeErr c5scheduleErr).2
      rfl (fun task => rfl) rfl).1

end Orchestrator

end Remi
